import Mathlib

/-!
Verification of the Citation Network Analysis Engine
(`backend/controllers/networkController.js`).

Conventions of the embedding:
* JavaScript numbers are modelled as exact rationals (`Rat`); the spec's
  "within floating-point tolerance" statements are settled against this
  exact idealization.
* JavaScript division never raises: `x / 0` yields `NaN` or `±Infinity`.
  `jsDiv` returns `Option Rat`, with `none` standing for such a non-finite
  result (every claim-relevant division with zero divisor is of this kind).
* JavaScript objects / `Map`s used as dictionaries are modelled as total
  functions or association lists; a default value stands for an absent key
  and is only ever read where the source, too, would read `undefined`.
* Thrown errors are modelled with `Except String`.
-/

namespace CitationNet

attribute [local semireducible] Rat.add Rat.mul Rat.sub Rat.inv

/-- Modelled from the spec: the `graph-data-structure` npm package used by
the controller is a dependency whose source is not part of this repository.
Spec §3 "Graph Model": a set of PaperNode ids (the node set) and a multiset
of CitationEdge (parallel edges between the same ordered pair are permitted
and must each be counted separately); §4.2: degrees are computed by a single
pass over the edge multiset.  Nodes are kept in insertion order without
duplicates; edges are kept in insertion order with duplicates. -/
structure Graph where
  nodes : List String
  edgeList : List (String × String)
deriving Repr, DecidableEq

/-- Modelled from the spec: fresh empty graph (`Graph()`). -/
def Graph.emptyGraph : Graph := ⟨[], []⟩

/-- Modelled from the spec: node membership test (`hasNode`). -/
def Graph.hasNode (g : Graph) (n : String) : Bool := g.nodes.contains n

/-- Modelled from the spec: `addNode` inserts the id if not yet present. -/
def Graph.addNode (g : Graph) (n : String) : Graph :=
  if g.hasNode n then g else ⟨g.nodes ++ [n], g.edgeList⟩

/-- Modelled from the spec: `addEdge` ensures both endpoints are nodes and
appends the edge to the multiset (duplicate citations are not deduplicated). -/
def Graph.addEdge (g : Graph) (u v : String) : Graph :=
  let g' := (g.addNode u).addNode v
  ⟨g'.nodes, g'.edgeList ++ [(u, v)]⟩

/-- Modelled from the spec: out-neighbor list of a node, with multiplicity,
in edge insertion order (`adjacent`). -/
def Graph.adjacent (g : Graph) (u : String) : List String :=
  (g.edgeList.filter (fun e => e.1 == u)).map (fun e => e.2)

/-- Modelled from the spec: in-neighbor list of a node, with multiplicity
(`adjacentReverse`, used to treat the graph as undirected for components). -/
def Graph.adjacentReverse (g : Graph) (v : String) : List String :=
  (g.edgeList.filter (fun e => e.2 == v)).map (fun e => e.1)

/-- Modelled from the spec: edge membership test (`hasEdge`). -/
def Graph.hasEdge (g : Graph) (u v : String) : Bool := g.edgeList.contains (u, v)

/-- Modelled from the spec: in-degree = number of edges (with multiplicity)
whose target is the node. -/
def Graph.indegree (g : Graph) (v : String) : Nat :=
  (g.edgeList.filter (fun e => e.2 == v)).length

/-- Modelled from the spec: out-degree = number of edges (with multiplicity)
whose source is the node. -/
def Graph.outdegree (g : Graph) (u : String) : Nat := (g.adjacent u).length

/-- Modelled from the spec: the edge multiset, as `{source, target}` pairs
(`edges()`). -/
def Graph.edges (g : Graph) : List (String × String) := g.edgeList

/-- Spec §3 invariant of a built Graph Model: node ids are unique and every
edge's endpoints are members of the node set. -/
def Graph.Wellformed (g : Graph) : Prop :=
  g.nodes.Nodup ∧ ∀ e ∈ g.edgeList, e.1 ∈ g.nodes ∧ e.2 ∈ g.nodes

instance (g : Graph) : Decidable g.Wellformed := by
  unfold Graph.Wellformed
  infer_instance

/-- JavaScript division: total, never raises.  `none` models the non-finite
result (`NaN` or `±Infinity`) produced when the divisor is zero. -/
def jsDiv (a b : Rat) : Option Rat := if b = 0 then none else some (a / b)

/-- Sum of a rational-valued table over a key list. -/
def sumOver (l : List String) (f : String → Rat) : Rat := (l.map f).sum

/-- Result of `calculateBasicMetrics` (`networkController.js` lines 117-133).
`density`, `avgInDegree`, `avgOutDegree` are JS divisions; `maxInDegree` and
`maxOutDegree` are `Math.max(...list)`, which is `-Infinity` (`none`) on an
empty list.  The degree-distribution objects are modelled as count
functions. -/
structure BasicMetrics where
  nodeCount : Nat
  edgeCount : Nat
  density : Option Rat
  avgInDegree : Option Rat
  avgOutDegree : Option Rat
  maxInDegree : Option Nat
  maxOutDegree : Option Nat
  inDegreeDistribution : Nat → Nat
  outDegreeDistribution : Nat → Nat

/-- `calculateDegreeDistribution` (lines 465-481): occurrence count of each
degree value. -/
def calculateDegreeDistribution (degrees : List Nat) : Nat → Nat :=
  fun d => degrees.count d

/-- `calculateBasicMetrics` (lines 117-133), translated field by field. -/
def calculateBasicMetrics (g : Graph) : BasicMetrics :=
  let nodes := g.nodes
  let edges := g.edges
  let inDegrees := nodes.map (fun node => g.indegree node)
  let outDegrees := nodes.map (fun node => g.outdegree node)
  { nodeCount := nodes.length
    edgeCount := edges.length
    density := jsDiv (edges.length : Rat) ((nodes.length : Rat) * ((nodes.length : Rat) - 1))
    avgInDegree := jsDiv ((inDegrees.sum : Nat) : Rat) (nodes.length : Rat)
    avgOutDegree := jsDiv ((outDegrees.sum : Nat) : Rat) (nodes.length : Rat)
    maxInDegree := inDegrees.max?
    maxOutDegree := outDegrees.max?
    inDegreeDistribution := calculateDegreeDistribution inDegrees
    outDegreeDistribution := calculateDegreeDistribution outDegrees }

/-- Sum of pointwise sums of two `Nat`-valued maps over a list. -/
theorem sum_map_add (l : List String) (f g : String → Nat) :
    (l.map (fun v => f v + g v)).sum = (l.map f).sum + (l.map g).sum := by
  induction l with
  | nil => simp
  | cons x xs ih => simp [ih]; omega

/-- A key absent from the list contributes nothing to the indicator sum. -/
theorem sum_indicator_not_mem {x : String} {l : List String}
    (hx : x ∉ l) : (l.map (fun v => if x == v then (1 : Nat) else 0)).sum = 0 := by
  induction l with
  | nil => simp
  | cons y ys ih =>
    have hxy : ¬ ((x == y) = true) := by
      simp only [beq_iff_eq]
      intro h
      exact hx (h ▸ List.mem_cons_self y ys)
    have hxs : x ∉ ys := fun h => hx (List.mem_cons_of_mem _ h)
    rw [List.map_cons, List.sum_cons, if_neg hxy, ih hxs]

/-- On a duplicate-free list, the indicator of a member sums to exactly one. -/
theorem sum_indicator_mem {x : String} {l : List String}
    (hnd : l.Nodup) (hx : x ∈ l) :
    (l.map (fun v => if x == v then (1 : Nat) else 0)).sum = 1 := by
  induction l with
  | nil => cases hx
  | cons y ys ih =>
    rcases List.mem_cons.mp hx with h | h
    · subst h
      have hnotin : x ∉ ys := (List.nodup_cons.mp hnd).1
      rw [List.map_cons, List.sum_cons, if_pos (by simp), sum_indicator_not_mem hnotin]
    · have hxy : ¬ ((x == y) = true) := by
        simp only [beq_iff_eq]
        intro he
        exact (List.nodup_cons.mp hnd).1 (he ▸ h)
      rw [List.map_cons, List.sum_cons, if_neg hxy,
        ih (List.nodup_cons.mp hnd).2 h]

/-- Counting, for every node, the edges whose designated endpoint is that
node covers each edge exactly once when all those endpoints are nodes. -/
theorem sum_count_key (key : String × String → String)
    (es : List (String × String)) (ns : List String) (hnd : ns.Nodup)
    (hmem : ∀ e ∈ es, key e ∈ ns) :
    (ns.map (fun v => (es.filter (fun e => key e == v)).length)).sum = es.length := by
  induction es with
  | nil => simp
  | cons e es ih =>
    have hstep : ∀ v, (List.filter (fun e' => key e' == v) (e :: es)).length =
        (if key e == v then (1 : Nat) else 0) +
          (List.filter (fun e' => key e' == v) es).length := by
      intro v
      rw [List.filter_cons]
      by_cases h : (key e == v) = true
      · simp only [h, if_true, List.length_cons]
        omega
      · simp [h]
    rw [List.map_congr_left (fun v _ => hstep v), sum_map_add]
    rw [sum_indicator_mem hnd (hmem e (List.mem_cons_self e es))]
    rw [ih (fun e' he' => hmem e' (List.mem_cons_of_mem _ he'))]
    simp [Nat.add_comm]

/-- Out-degree is the edge count keyed by source. -/
theorem outdegree_eq_filter (g : Graph) (u : String) :
    g.outdegree u = (g.edgeList.filter (fun e => e.1 == u)).length := by
  simp [Graph.outdegree, Graph.adjacent]

/-- C3: for every built (well-formed) Graph Model, the sum over all nodes of
in-degree equals the sum over all nodes of out-degree, and both equal the
edge count reported by `calculateBasicMetrics`. -/
theorem degree_sums_eq_edgeCount (g : Graph) (h : g.Wellformed) :
    (g.nodes.map g.indegree).sum = (calculateBasicMetrics g).edgeCount ∧
    (g.nodes.map g.outdegree).sum = (calculateBasicMetrics g).edgeCount := by
  have hedge : (calculateBasicMetrics g).edgeCount = g.edgeList.length := rfl
  constructor
  · rw [hedge]
    have := sum_count_key Prod.snd g.edgeList g.nodes h.1
      (fun e he => (h.2 e he).2)
    simpa [Graph.indegree] using this
  · rw [hedge]
    have := sum_count_key Prod.fst g.edgeList g.nodes h.1
      (fun e he => (h.2 e he).1)
    rw [List.map_congr_left (fun u _ => outdegree_eq_filter g u)]
    simpa using this

/-- Spec §8 scenario graph: nodes A, B, C with edges A→B, B→C, A→C. -/
def gABC : Graph :=
  ((Graph.emptyGraph.addEdge "A" "B").addEdge "B" "C").addEdge "A" "C"

/-- C3 witness: the degree-sum identity evaluated on the spec §8 scenario
graph (3 nodes, 3 edges). -/
theorem degree_sums_eq_edgeCount_witness :
    gABC.Wellformed ∧
      ((gABC.nodes.map gABC.indegree).sum = (calculateBasicMetrics gABC).edgeCount ∧
       (gABC.nodes.map gABC.outdegree).sum = (calculateBasicMetrics gABC).edgeCount) :=
  ⟨by decide, degree_sums_eq_edgeCount gABC (by decide)⟩

/-- One-node graph (a single paper, no citations). -/
def gSingle : Graph := Graph.emptyGraph.addNode "A"

/-- C4 counterexample: on a one-node Graph Model the density computed by
`calculateBasicMetrics` is the JS value `0 / 0 = NaN` (modelled `none`), not
the value `0` the claim requires; no exception is raised. -/
theorem density_single_node_not_zero :
    (calculateBasicMetrics gSingle).density ≠ some 0 ∧
    (calculateBasicMetrics gSingle).density = none := by
  constructor
  · decide
  · decide

/-- C4 (amended): for at least 2 nodes the density equals
`edgeCount / (nodeCount*(nodeCount-1))`; for `nodeCount ≤ 1` the division
does not fault — it totally returns the non-finite JS value (`NaN` or
`Infinity`, modelled `none`), not `0`. -/
theorem density_characterization (g : Graph) :
    (2 ≤ g.nodes.length →
      (calculateBasicMetrics g).density =
        some ((g.edgeList.length : Rat) /
          ((g.nodes.length : Rat) * ((g.nodes.length : Rat) - 1)))) ∧
    (g.nodes.length ≤ 1 → (calculateBasicMetrics g).density = none) := by
  constructor
  · intro h2
    have hn : (2 : Rat) ≤ (g.nodes.length : Rat) := by exact_mod_cast h2
    have hpos : (0 : Rat) < (g.nodes.length : Rat) := by linarith
    have hpos1 : (0 : Rat) < (g.nodes.length : Rat) - 1 := by linarith
    have hne : ((g.nodes.length : Rat) * ((g.nodes.length : Rat) - 1)) ≠ 0 :=
      ne_of_gt (mul_pos hpos hpos1)
    simp [calculateBasicMetrics, jsDiv, hne, Graph.edges]
  · intro h1
    interval_cases h : g.nodes.length <;>
      simp [calculateBasicMetrics, jsDiv, Graph.edges, h]

/-- C4 witness: the amended density characterization evaluated on the spec
§8 scenario graph (density defined, `3/6`) and on a one-node graph
(`NaN`). -/
theorem density_characterization_witness :
    (2 ≤ gABC.nodes.length ∧
      (calculateBasicMetrics gABC).density =
        some ((gABC.edgeList.length : Rat) /
          ((gABC.nodes.length : Rat) * ((gABC.nodes.length : Rat) - 1)))) ∧
    (gSingle.nodes.length ≤ 1 ∧ (calculateBasicMetrics gSingle).density = none) :=
  ⟨⟨by decide, (density_characterization gABC).1 (by decide)⟩,
   ⟨by decide, (density_characterization gSingle).2 (by decide)⟩⟩

/-- PaperNode attributes snapshotted at build time (spec §3; the node loop at
`networkController.js` lines 47-60).  Authors are represented by their names,
the only author field the engine reads; `publishedDate` by its calendar year,
the only component the engine reads (`getFullYear()`). -/
structure Paper where
  id : String
  title : String
  authors : List String
  publishedYear : Int
  citationCount : Rat
  impactScore : Rat
  categories : List String
  keywords : List String
deriving Repr, DecidableEq

/-- Default paper value standing for a JS `undefined` lookup result; never
read on built states, where every node id is mapped. -/
def defaultPaper : Paper := ⟨"", "", [], 0, 0, 0, [], []⟩

/-- A Citation record as read from the store (spec §3 CitationEdge). -/
structure Citation where
  citingPaper : String
  citedPaper : String
  citationType : String
  sentiment : String
  strength : Rat
  context : String
deriving Repr, DecidableEq

/-- JS `Map.set`: overwriting an existing key keeps its insertion position,
a new key is appended. -/
def mapSet {α : Type} (m : List (String × α)) (k : String) (v : α) : List (String × α) :=
  if m.any (fun kv => kv.1 == k) then
    m.map (fun kv => if kv.1 == k then (k, v) else kv)
  else m ++ [(k, v)]

/-- JS `Map.get`: `none` models `undefined`. -/
def mapGet {α : Type} (m : List (String × α)) (k : String) : Option α :=
  (m.find? (fun kv => kv.1 == k)).map (fun kv => kv.2)

/-- The engine's mutable state after a build: `this.graph`,
`this.paperNodes`, `this.citationEdges`.  The `citationEdges` map is keyed
by the template string `source ++ "-" ++ target`; its stored value object
copies the citation's fields (lines 76-83), so the record itself is kept. -/
structure NetState where
  graph : Graph
  paperNodes : List (String × Paper)
  citationEdges : List (String × Citation)
deriving Repr, DecidableEq

/-- `buildCitationNetwork` (lines 16-97), taken after the store queries:
`papers` is the filtered, ordered paper list the store returned and
`citations` the citation records with both endpoints among the selected
paper ids (the store-side `$in` filters and the error path around the
queries are outside this model).  Nodes are added first; each citation is
added as an edge only if both endpoints are present (line 74), with no
deduplication of parallel edges. -/
def buildCitationNetwork (papers : List Paper) (citations : List Citation) : NetState :=
  let g0 := papers.foldl (fun g p => g.addNode p.id) Graph.emptyGraph
  let pn := papers.foldl (fun m p => mapSet m p.id p) []
  let gce := citations.foldl (fun (st : Graph × List (String × Citation)) c =>
    if st.1.hasNode c.citingPaper && st.1.hasNode c.citedPaper then
      (st.1.addEdge c.citingPaper c.citedPaper,
       mapSet st.2 (c.citingPaper ++ "-" ++ c.citedPaper) c)
    else st) (g0, [])
  ⟨gce.1, pn, gce.2⟩

/-- Citation records whose both endpoints are among the selected papers'
ids — the ones the builder keeps (spec §4.1). -/
def selectedCitations (papers : List Paper) (citations : List Citation) : List Citation :=
  citations.filter (fun c =>
    (papers.map Paper.id).contains c.citingPaper &&
    (papers.map Paper.id).contains c.citedPaper)

/-- Adding a node never changes the edge multiset. -/
theorem addNode_edgeList (g : Graph) (n : String) :
    (g.addNode n).edgeList = g.edgeList := by
  unfold Graph.addNode
  split <;> rfl

/-- Membership in the node set after `addNode`. -/
theorem mem_addNode_nodes (g : Graph) (n m : String) :
    m ∈ (g.addNode n).nodes ↔ m ∈ g.nodes ∨ m = n := by
  unfold Graph.addNode Graph.hasNode
  by_cases h : g.nodes.contains n = true
  · rw [if_pos h]
    have hn : n ∈ g.nodes := by
      simpa [List.contains, List.elem_iff] using h
    constructor
    · exact fun hm => Or.inl hm
    · rintro (hm | rfl)
      · exact hm
      · exact hn
  · rw [if_neg h]
    simp

/-- Folding `addNode` over a paper list: resulting node membership. -/
theorem mem_foldl_addNode (papers : List Paper) (g : Graph) (m : String) :
    m ∈ (papers.foldl (fun g p => g.addNode p.id) g).nodes ↔
      m ∈ g.nodes ∨ m ∈ papers.map Paper.id := by
  induction papers generalizing g with
  | nil => simp
  | cons p ps ih =>
    rw [List.foldl_cons, ih, mem_addNode_nodes]
    simp only [List.map_cons, List.mem_cons]
    tauto

/-- Folding `addNode` adds no edges. -/
theorem foldl_addNode_edgeList (papers : List Paper) (g : Graph) :
    (papers.foldl (fun g p => g.addNode p.id) g).edgeList = g.edgeList := by
  induction papers generalizing g with
  | nil => rfl
  | cons p ps ih => rw [List.foldl_cons, ih, addNode_edgeList]

/-- `addEdge` between two present endpoints leaves the node set unchanged. -/
theorem addEdge_nodes_of_hasNode (g : Graph) (u v : String)
    (hu : g.hasNode u = true) (hv : g.hasNode v = true) :
    (g.addEdge u v).nodes = g.nodes := by
  unfold Graph.addEdge Graph.addNode
  rw [if_pos hu]
  rw [if_pos hv]

/-- `addEdge` appends exactly one edge to the multiset. -/
theorem addEdge_edgeList_of_hasNode (g : Graph) (u v : String)
    (hu : g.hasNode u = true) (hv : g.hasNode v = true) :
    (g.addEdge u v).edgeList = g.edgeList ++ [(u, v)] := by
  unfold Graph.addEdge Graph.addNode
  rw [if_pos hu]
  rw [if_pos hv]

/-- The citation-insertion fold keeps the node set and appends one edge per
citation whose endpoints pass the `hasNode` guard, in order, without
deduplication. -/
theorem foldl_addCitations (citations : List Citation)
    (g : Graph) (ce : List (String × Citation)) :
    (citations.foldl (fun (st : Graph × List (String × Citation)) c =>
      if st.1.hasNode c.citingPaper && st.1.hasNode c.citedPaper then
        (st.1.addEdge c.citingPaper c.citedPaper,
         mapSet st.2 (c.citingPaper ++ "-" ++ c.citedPaper) c)
      else st) (g, ce)).1.nodes = g.nodes ∧
    (citations.foldl (fun (st : Graph × List (String × Citation)) c =>
      if st.1.hasNode c.citingPaper && st.1.hasNode c.citedPaper then
        (st.1.addEdge c.citingPaper c.citedPaper,
         mapSet st.2 (c.citingPaper ++ "-" ++ c.citedPaper) c)
      else st) (g, ce)).1.edgeList =
      g.edgeList ++ (citations.filter (fun c =>
        g.hasNode c.citingPaper && g.hasNode c.citedPaper)).map
          (fun c => (c.citingPaper, c.citedPaper)) := by
  induction citations generalizing g ce with
  | nil => exact ⟨rfl, by simp⟩
  | cons c cs ih =>
    rw [List.foldl_cons, List.filter_cons]
    by_cases h : (g.hasNode c.citingPaper && g.hasNode c.citedPaper) = true
    · have h' := h
      simp only [Bool.and_eq_true] at h'
      obtain ⟨hu, hv⟩ := h'
      rw [if_pos h, if_pos h]
      have hnodes := addEdge_nodes_of_hasNode g _ _ hu hv
      have hhas : ∀ x, (g.addEdge c.citingPaper c.citedPaper).hasNode x = g.hasNode x := by
        intro x
        unfold Graph.hasNode
        rw [hnodes]
      have ih' := ih (g.addEdge c.citingPaper c.citedPaper)
        (mapSet ce (c.citingPaper ++ "-" ++ c.citedPaper) c)
      have hfc : List.filter (fun c1 : Citation =>
          (g.addEdge c.citingPaper c.citedPaper).hasNode c1.citingPaper &&
          (g.addEdge c.citingPaper c.citedPaper).hasNode c1.citedPaper) cs =
          List.filter (fun c1 : Citation =>
            g.hasNode c1.citingPaper && g.hasNode c1.citedPaper) cs :=
        List.filter_congr (fun x _ => by rw [hhas x.citingPaper, hhas x.citedPaper])
      constructor
      · rw [ih'.1, hnodes]
      · rw [ih'.2, addEdge_edgeList_of_hasNode g _ _ hu hv, hfc]
        simp
    · rw [if_neg h, if_neg h]
      exact ih g ce

/-- C2: duplicate citations between the same ordered pair of selected papers
each become a separate member of the built graph's edge multiset (no
deduplication), and each parallel edge is counted separately by the degree
computations and by the reported edge count. -/
theorem build_keeps_parallel_edges (papers : List Paper) (citations : List Citation) :
    (buildCitationNetwork papers citations).graph.edgeList =
        (selectedCitations papers citations).map (fun c => (c.citingPaper, c.citedPaper)) ∧
    (∀ v, (buildCitationNetwork papers citations).graph.indegree v =
        ((selectedCitations papers citations).filter (fun c => c.citedPaper == v)).length) ∧
    (∀ u, (buildCitationNetwork papers citations).graph.outdegree u =
        ((selectedCitations papers citations).filter (fun c => c.citingPaper == u)).length) ∧
    (calculateBasicMetrics (buildCitationNetwork papers citations).graph).edgeCount =
        (selectedCitations papers citations).length := by
  have hg : (buildCitationNetwork papers citations).graph.edgeList =
      (selectedCitations papers citations).map (fun c => (c.citingPaper, c.citedPaper)) := by
    unfold buildCitationNetwork
    have h := (foldl_addCitations citations
      (papers.foldl (fun g p => g.addNode p.id) Graph.emptyGraph) []).2
    simp only [h, foldl_addNode_edgeList papers Graph.emptyGraph]
    have hfilter : (citations.filter (fun c =>
        (papers.foldl (fun g p => g.addNode p.id) Graph.emptyGraph).hasNode c.citingPaper &&
        (papers.foldl (fun g p => g.addNode p.id) Graph.emptyGraph).hasNode c.citedPaper)) =
        selectedCitations papers citations := by
      apply List.filter_congr
      intro c _
      have hmem : ∀ x, (papers.foldl (fun g p => g.addNode p.id) Graph.emptyGraph).hasNode x =
          (papers.map Paper.id).contains x := by
        intro x
        have h1 := mem_foldl_addNode papers Graph.emptyGraph x
        simp only [Graph.emptyGraph, List.not_mem_nil, false_or] at h1
        unfold Graph.hasNode
        by_cases hx : x ∈ papers.map Paper.id
        · have : x ∈ (papers.foldl (fun g p => g.addNode p.id) Graph.emptyGraph).nodes :=
            h1.mpr hx
          simp only [List.contains, List.elem_iff]
          simp [List.elem_iff, this, hx]
        · have : x ∉ (papers.foldl (fun g p => g.addNode p.id) Graph.emptyGraph).nodes :=
            fun hc => hx (h1.mp hc)
          simp [List.contains, List.elem_iff, this, hx]
      rw [hmem, hmem]
    rw [hfilter]
    simp [Graph.emptyGraph, selectedCitations]
  refine ⟨hg, ?_, ?_, ?_⟩
  · intro v
    unfold Graph.indegree
    rw [hg, List.filter_map, List.length_map]
    rfl
  · intro u
    rw [outdegree_eq_filter, hg, List.filter_map, List.length_map]
    rfl
  · have : (calculateBasicMetrics (buildCitationNetwork papers citations).graph).edgeCount =
        (buildCitationNetwork papers citations).graph.edgeList.length := rfl
    rw [this, hg, List.length_map]

/-- Repeated `newScores[neighbor] += contribution` over an adjacency list
(lines 355-357): each occurrence of a target adds the contribution once. -/
def applyContrib (m : String → Rat) (targets : List String) (c : Rat) : String → Rat :=
  targets.foldl (fun m v => Function.update m v (m v + c)) m

/-- One iteration of the authority loop (lines 346-362): reset every node's
score to `(1-d)/N`, then add `d * score(u) / outdegree(u)` to each
out-neighbor of every node `u` with positive out-degree, and assign the new
table.  Score objects are keyed by node id; the value `0` outside the node
set stands for an absent key and is never read on well-formed graphs. -/
def authorityPass (g : Graph) (dampingFactor : Rat) (scores : String → Rat) : String → Rat :=
  let base : String → Rat := fun node =>
    if node ∈ g.nodes then (1 - dampingFactor) / (g.nodes.length : Rat) else 0
  g.nodes.foldl (fun newScores node =>
    if 0 < g.outdegree node then
      applyContrib newScores (g.adjacent node)
        (dampingFactor * scores node / (g.outdegree node : Rat))
    else newScores) base

/-- The fixed-count iteration of `calculateAuthorityScore` (no convergence
check). -/
def authorityIter (g : Graph) (dampingFactor : Rat) : Nat → (String → Rat) → (String → Rat)
  | 0, scores => scores
  | n + 1, scores => authorityIter g dampingFactor n (authorityPass g dampingFactor scores)

/-- `calculateAuthorityScore` (lines 335-366): every node starts at `1/N`;
the callers use `iterations = 10` and `dampingFactor = 0.85`. -/
def calculateAuthorityScore (g : Graph) (iterations : Nat) (dampingFactor : Rat) :
    String → Rat :=
  let init : String → Rat := fun node =>
    if node ∈ g.nodes then 1 / (g.nodes.length : Rat) else 0
  authorityIter g dampingFactor iterations init

/-- Pointwise equal tables have equal sums. -/
theorem sumOver_congr {l : List String} {f g : String → Rat}
    (h : ∀ v ∈ l, f v = g v) : sumOver l f = sumOver l g := by
  unfold sumOver
  rw [List.map_congr_left h]

/-- Adding `c` at a key occurring exactly once raises the sum by `c`. -/
theorem sumOver_update (l : List String) (m : String → Rat) (x : String) (c : Rat)
    (hnd : l.Nodup) (hx : x ∈ l) :
    sumOver l (Function.update m x (m x + c)) = sumOver l m + c := by
  induction l with
  | nil => cases hx
  | cons y ys ih =>
    have hnd' := List.nodup_cons.mp hnd
    rcases List.mem_cons.mp hx with h | h
    · subst h
      have htail : ∀ v ∈ ys, Function.update m x (m x + c) v = m v := by
        intro v hv
        exact Function.update_noteq (fun (he : v = x) => hnd'.1 (he ▸ hv)) _ m
      unfold sumOver
      simp only [List.map_cons, List.sum_cons, Function.update_same]
      rw [List.map_congr_left htail]
      ring
    · have hhead : Function.update m x (m x + c) y = m y :=
        Function.update_noteq (fun (he : y = x) => hnd'.1 (he ▸ h)) _ m
      unfold sumOver
      simp only [List.map_cons, List.sum_cons, hhead]
      have := ih hnd'.2 h
      unfold sumOver at this
      rw [this]
      ring

/-- Distributing contributions along a target list (with multiplicity)
raises the sum by `targets.length * c` when all targets are keys. -/
theorem sumOver_applyContrib (l : List String) (targets : List String)
    (m : String → Rat) (c : Rat) (hnd : l.Nodup) (hsub : ∀ t ∈ targets, t ∈ l) :
    sumOver l (applyContrib m targets c) = sumOver l m + targets.length * c := by
  induction targets generalizing m with
  | nil => simp [applyContrib]
  | cons t ts ih =>
    have ht : t ∈ l := hsub t (List.mem_cons_self t ts)
    have hts : ∀ x ∈ ts, x ∈ l := fun x hx => hsub x (List.mem_cons_of_mem _ hx)
    unfold applyContrib
    rw [List.foldl_cons]
    have := ih (Function.update m t (m t + c)) hts
    unfold applyContrib at this
    rw [this, sumOver_update l m t c hnd ht]
    simp only [List.length_cons]
    push_cast
    ring

/-- In a well-formed graph every out-neighbor is a node. -/
theorem adjacent_mem_nodes (g : Graph) (h : g.Wellformed) (u : String) :
    ∀ v ∈ g.adjacent u, v ∈ g.nodes := by
  intro v hv
  unfold Graph.adjacent at hv
  obtain ⟨e, he, rfl⟩ := List.mem_map.mp hv
  exact (h.2 e (List.mem_filter.mp he).1).2

/-- Sum of a constant map over a list. -/
theorem sum_map_const_rat (l : List String) (a : Rat) :
    (l.map (fun _ => a)).sum = l.length * a := by
  induction l with
  | nil => simp
  | cons y ys ih =>
    simp only [List.map_cons, List.sum_cons, ih, List.length_cons]
    push_cast
    ring

/-- Sum of a node-indexed constant table. -/
theorem sumOver_ite_const (l : List String) (a : Rat) :
    sumOver l (fun v => if v ∈ l then a else 0) = l.length * a := by
  have h : ∀ v ∈ l, (fun v => if v ∈ l then a else 0) v = (fun _ => a) v := by
    intro v hv
    simp [hv]
  rw [sumOver_congr h]
  exact sum_map_const_rat l a

/-- One authority pass turns a total score mass `S` into `(1-d) + d*S` when
every node has positive out-degree. -/
theorem sumOver_authorityPass (g : Graph) (d : Rat) (scores : String → Rat)
    (hw : g.Wellformed) (hne : g.nodes ≠ [])
    (hout : ∀ u ∈ g.nodes, 0 < g.outdegree u) :
    sumOver g.nodes (authorityPass g d scores) =
      (1 - d) + d * sumOver g.nodes scores := by
  have hN : ((g.nodes.length : Rat)) ≠ 0 := by
    have : g.nodes.length ≠ 0 := fun h => hne (List.eq_nil_of_length_eq_zero h)
    exact_mod_cast this
  have hfold : ∀ (us : List String) (m : String → Rat), (∀ u ∈ us, u ∈ g.nodes) →
      sumOver g.nodes (us.foldl (fun newScores node =>
        if 0 < g.outdegree node then
          applyContrib newScores (g.adjacent node)
            (d * scores node / (g.outdegree node : Rat))
        else newScores) m) =
      sumOver g.nodes m + d * (us.map scores).sum := by
    intro us
    induction us with
    | nil => intro m _; simp
    | cons u us ih =>
      intro m hsub
      have hu : u ∈ g.nodes := hsub u (List.mem_cons_self u us)
      have hus : ∀ x ∈ us, x ∈ g.nodes := fun x hx => hsub x (List.mem_cons_of_mem _ hx)
      have hdeg : 0 < g.outdegree u := hout u hu
      rw [List.foldl_cons, if_pos hdeg, ih _ hus,
        sumOver_applyContrib g.nodes (g.adjacent u) m
          (d * scores u / (g.outdegree u : Rat)) hw.1 (adjacent_mem_nodes g hw u)]
      have hlen : ((g.adjacent u).length : Rat) = (g.outdegree u : Rat) := rfl
      have hdegQ : ((g.outdegree u : Rat)) ≠ 0 := by
        have : g.outdegree u ≠ 0 := Nat.pos_iff_ne_zero.mp hdeg
        exact_mod_cast this
      rw [hlen]
      have key : ((g.outdegree u : Rat)) * (d * scores u / ((g.outdegree u : Rat))) =
          d * scores u := by
        field_simp
      rw [key]
      simp only [List.map_cons, List.sum_cons]
      ring
  unfold authorityPass
  rw [hfold g.nodes _ (fun u hu => hu), sumOver_ite_const g.nodes ((1 - d) / (g.nodes.length : Rat))]
  rw [mul_div_cancel₀ _ hN]
  rfl

/-- Iterating the pass preserves unit total mass. -/
theorem sumOver_authorityIter (g : Graph) (d : Rat) (hw : g.Wellformed)
    (hne : g.nodes ≠ []) (hout : ∀ u ∈ g.nodes, 0 < g.outdegree u) :
    ∀ (k : Nat) (scores : String → Rat), sumOver g.nodes scores = 1 →
      sumOver g.nodes (authorityIter g d k scores) = 1 := by
  intro k
  induction k with
  | zero => intro scores h; exact h
  | succ n ih =>
    intro scores h
    unfold authorityIter
    apply ih
    rw [sumOver_authorityPass g d scores hw hne hout, h]
    ring

/-- C5: on a built graph in which no node has zero out-degree, the authority
scores produced by `calculateAuthorityScore` — initialized to `1/N`,
damping `0.85` applied uniformly for exactly 10 iterations with no
convergence check — sum to exactly 1 in the exact-rational model of JS
floats. -/
theorem authority_scores_sum_to_one (g : Graph) (hw : g.Wellformed)
    (hne : g.nodes ≠ []) (hout : ∀ u ∈ g.nodes, 0 < g.outdegree u) :
    sumOver g.nodes (calculateAuthorityScore g 10 (85/100)) = 1 := by
  have hN : ((g.nodes.length : Rat)) ≠ 0 := by
    have : g.nodes.length ≠ 0 := fun h => hne (List.eq_nil_of_length_eq_zero h)
    exact_mod_cast this
  unfold calculateAuthorityScore
  apply sumOver_authorityIter g _ hw hne hout
  rw [sumOver_ite_const g.nodes (1 / (g.nodes.length : Rat))]
  rw [mul_one_div, div_self hN]

/-- Single node citing itself: the smallest graph with no zero-out-degree
node. -/
def gLoop : Graph := Graph.emptyGraph.addEdge "A" "A"

/-- C5 witness: the unit-mass theorem evaluated on the one-node self-loop
graph. -/
theorem authority_scores_sum_to_one_witness :
    gLoop.Wellformed ∧ gLoop.nodes ≠ [] ∧ (∀ u ∈ gLoop.nodes, 0 < gLoop.outdegree u) ∧
      sumOver gLoop.nodes (calculateAuthorityScore gLoop 10 (85/100)) = 1 :=
  ⟨by decide, by decide, by decide,
    authority_scores_sum_to_one gLoop (by decide) (by decide) (by decide)⟩

/-- JS `Set` / object-key iteration order: first occurrences, in insertion
order. -/
def firstOccur (l : List String) : List String :=
  l.foldl (fun acc x => if acc.contains x then acc else acc ++ [x]) []

/-- `calculatePaperSimilarity` (lines 400-422): each attribute term divides
the overlap size by `Math.max` of the two set sizes (not by the union
size).  When both sets of an attribute are empty the JS division is
`0 / 0 = NaN`, which poisons the running `similarity += ...` sum — modelled
by the `Option` bind. -/
def calculatePaperSimilarity (paper1 paper2 : Paper) : Option Rat :=
  let categories1 := firstOccur paper1.categories
  let categories2 := firstOccur paper2.categories
  let categoryOverlap := categories1.filter (fun x => categories2.contains x)
  let keywords1 := firstOccur paper1.keywords
  let keywords2 := firstOccur paper2.keywords
  let keywordOverlap := keywords1.filter (fun x => keywords2.contains x)
  let authors1 := firstOccur paper1.authors
  let authors2 := firstOccur paper2.authors
  let authorOverlap := authors1.filter (fun x => authors2.contains x)
  do
    let t1 ← jsDiv (categoryOverlap.length : Rat) ((max categories1.length categories2.length : Nat) : Rat)
    let t2 ← jsDiv (keywordOverlap.length : Rat) ((max keywords1.length keywords2.length : Nat) : Rat)
    let t3 ← jsDiv (authorOverlap.length : Rat) ((max authors1.length authors2.length : Nat) : Rat)
    pure (t1 * (4/10) + t2 * (3/10) + t3 * (3/10))

/-- JS comparison `similarity > threshold`: false when similarity is `NaN`. -/
def simExceeds (s : Option Rat) (threshold : Rat) : Bool :=
  match s with
  | none => false
  | some v => decide (threshold < v)

/-- JS `Set.add`: appends only a fresh element, keeping insertion order. -/
def setAdd (l : List String) (x : String) : List String :=
  if l.contains x then l else l ++ [x]

/-- State of the community breadth-first expansion: the work queue, the
detection-wide visited set, and the growing community. -/
structure CommSt where
  queue : List String
  visited : List String
  community : List String
deriving Repr, DecidableEq

/-- Per-neighbor body of the BFS inner loop (lines 252-264): an unvisited
outgoing neighbor is enqueued, marked visited, and added to the community
exactly when its similarity to the current node exceeds `0.3`. -/
def considerNeighbor (papers : String → Paper) (current : String)
    (st : CommSt) (neighbor : String) : CommSt :=
  if st.visited.contains neighbor then st
  else if simExceeds (calculatePaperSimilarity (papers current) (papers neighbor)) (3/10) then
    { queue := st.queue ++ [neighbor], visited := st.visited ++ [neighbor],
      community := setAdd st.community neighbor }
  else st

/-- The BFS `while (queue.length > 0)` loop (lines 246-265), fuelled.  Each
iteration pops one queue element; elements are enqueued only when freshly
added to the ever-growing visited set, so `nodes + edges + 1` fuel always
drains the queue.  The properties proved below hold for every fuel value. -/
def communityLoop (g : Graph) (papers : String → Paper) : Nat → CommSt → CommSt
  | 0, st => st
  | fuel + 1, st =>
    match st.queue with
    | [] => st
    | current :: rest =>
      communityLoop g papers fuel
        ((g.adjacent current).foldl (considerNeighbor papers current)
          { st with queue := rest })

/-- Outer pass of `detectCommunities` (lines 231-271): one BFS per
unvisited node; a discovered group is kept only when it has at least 3
members.  Returns the member lists in discovery order. -/
def detectRawCommunities (g : Graph) (papers : String → Paper) : List (List String) :=
  (g.nodes.foldl (fun (acc : List String × List (List String)) node =>
    if acc.1.contains node then acc
    else
      let st := communityLoop g papers (g.nodes.length + g.edgeList.length + 1)
        { queue := [node], visited := acc.1 ++ [node], community := [node] }
      if 3 ≤ st.community.length then (st.visited, acc.2 ++ [st.community])
      else (st.visited, acc.2)) ([], [])).2

/-- `getTopCategories` (lines 425-437): per-category frequency (object keys
in first-occurrence order), stable-sorted descending by count, top 5. -/
def getTopCategories (papers : List Paper) : List (String × Nat) :=
  let all := (papers.map (fun p => p.categories)).flatten
  (((firstOccur all).map (fun c => (c, all.count c))).mergeSort
      (fun a b => decide (b.2 ≤ a.2))).take 5

/-- `getTopKeywords` (lines 440-452): same, top 10. -/
def getTopKeywords (papers : List Paper) : List (String × Nat) :=
  let all := (papers.map (fun p => p.keywords)).flatten
  (((firstOccur all).map (fun k => (k, all.count k))).mergeSort
      (fun a b => decide (b.2 ≤ a.2))).take 10

/-- `getTimeSpan` (lines 455-462); `stop` models the source's `end` field
(a Lean keyword).  `Math.min`/`Math.max` of an empty year list are
non-finite (`none`). -/
structure TimeSpan where
  start : Option Int
  stop : Option Int
  span : Option Int
deriving Repr, DecidableEq

/-- `getTimeSpan` over the member papers' publication years. -/
def getTimeSpan (papers : List Paper) : TimeSpan :=
  let years := papers.map (fun p => p.publishedYear)
  { start := years.min?
    stop := years.max?
    span := match years.max?, years.min? with
      | some b, some a => some (b - a)
      | _, _ => none }

/-- One community's annotation record (lines 278-288). -/
structure CommunityAnalysis where
  id : Nat
  size : Nat
  members : List String
  topCategories : List (String × Nat)
  topKeywords : List (String × Nat)
  avgCitationCount : Option Rat
  avgImpactScore : Option Rat
  timeSpan : TimeSpan
  topPapers : List Paper
deriving Repr, DecidableEq

/-- Annotation of one community (lines 275-291): aggregates over the member
papers; `topPapers` is the member list stable-sorted descending by impact
score, truncated to 5. -/
def analyzeCommunity (papers : String → Paper) (id : Nat)
    (members : List String) : CommunityAnalysis :=
  let memberPapers := members.map papers
  { id := id
    size := members.length
    members := members
    topCategories := getTopCategories memberPapers
    topKeywords := getTopKeywords memberPapers
    avgCitationCount := jsDiv (memberPapers.map (fun p => p.citationCount)).sum
      (members.length : Rat)
    avgImpactScore := jsDiv (memberPapers.map (fun p => p.impactScore)).sum
      (members.length : Rat)
    timeSpan := getTimeSpan memberPapers
    topPapers := (memberPapers.mergeSort
      (fun a b => decide (b.impactScore ≤ a.impactScore))).take 5 }

/-- Community report (lines 293-296): community count and the annotated
communities sorted descending by size. -/
structure CommunitiesReport where
  count : Nat
  communities : List CommunityAnalysis
deriving Repr, DecidableEq

/-- `detectCommunities` (lines 231-297). -/
def detectCommunities (g : Graph) (papers : String → Paper) : CommunitiesReport :=
  let raw := detectRawCommunities g papers
  { count := raw.length
    communities := ((raw.enum.map (fun p => analyzeCommunity papers p.1 p.2)).mergeSort
      (fun a b => decide (b.size ≤ a.size))) }

/-- Membership after `setAdd`. -/
theorem mem_setAdd {l : List String} {x m : String}
    (h : m ∈ setAdd l x) : m ∈ l ∨ m = x := by
  unfold setAdd at h
  by_cases hc : l.contains x = true
  · rw [if_pos hc] at h
    exact Or.inl h
  · rw [if_neg hc] at h
    rcases List.mem_append.mp h with h | h
    · exact Or.inl h
    · exact Or.inr (List.mem_singleton.mp h)

/-- `considerNeighbor` keeps the community inside the node set whenever the
neighbor is a node. -/
theorem considerNeighbor_community_subset {g : Graph} (papers : String → Paper)
    (current : String) (st : CommSt) (nb : String) (hnb : nb ∈ g.nodes)
    (hc : ∀ m ∈ st.community, m ∈ g.nodes) :
    ∀ m ∈ (considerNeighbor papers current st nb).community, m ∈ g.nodes := by
  unfold considerNeighbor
  split
  · exact hc
  · split
    · intro m hm
      rcases mem_setAdd hm with h | h
      · exact hc m h
      · exact h ▸ hnb
    · exact hc

/-- Folding `considerNeighbor` over a list of nodes keeps the community
inside the node set. -/
theorem foldl_considerNeighbor_subset {g : Graph} (papers : String → Paper)
    (current : String) (targets : List String) (st : CommSt)
    (htargets : ∀ t ∈ targets, t ∈ g.nodes)
    (hc : ∀ m ∈ st.community, m ∈ g.nodes) :
    ∀ m ∈ (targets.foldl (considerNeighbor papers current) st).community, m ∈ g.nodes := by
  induction targets generalizing st with
  | nil => exact hc
  | cons t ts ih =>
    rw [List.foldl_cons]
    exact ih _ (fun x hx => htargets x (List.mem_cons_of_mem _ hx))
      (considerNeighbor_community_subset papers current st t
        (htargets t (List.mem_cons_self t ts)) hc)

/-- The BFS loop keeps the community inside the node set, for any fuel. -/
theorem communityLoop_community_subset (g : Graph) (papers : String → Paper)
    (hw : g.Wellformed) (fuel : Nat) :
    ∀ (st : CommSt), (∀ m ∈ st.community, m ∈ g.nodes) →
      ∀ m ∈ (communityLoop g papers fuel st).community, m ∈ g.nodes := by
  induction fuel with
  | zero => intro st hc; exact hc
  | succ n ih =>
    intro st hc
    unfold communityLoop
    match hq : st.queue with
    | [] => exact hc
    | current :: rest =>
      exact ih _ (foldl_considerNeighbor_subset papers current (g.adjacent current)
        _ (adjacent_mem_nodes g hw current) hc)

/-- The outer detection fold only ever appends communities that lie inside
the node set and have at least 3 members. -/
theorem detect_fold_invariant (g : Graph) (papers : String → Paper)
    (hw : g.Wellformed) (l : List String) (hl : ∀ n ∈ l, n ∈ g.nodes) :
    ∀ (acc : List String × List (List String)),
      (∀ c ∈ acc.2, (∀ m ∈ c, m ∈ g.nodes) ∧ 3 ≤ c.length) →
      ∀ c ∈ (List.foldl (fun (acc : List String × List (List String)) node =>
        if acc.1.contains node then acc
        else
          let st := communityLoop g papers (g.nodes.length + g.edgeList.length + 1)
            { queue := [node], visited := acc.1 ++ [node], community := [node] }
          if 3 ≤ st.community.length then (st.visited, acc.2 ++ [st.community])
          else (st.visited, acc.2)) acc l).2,
        (∀ m ∈ c, m ∈ g.nodes) ∧ 3 ≤ c.length := by
  induction l with
  | nil => intro acc hacc; exact hacc
  | cons node rest ih =>
    intro acc hacc
    rw [List.foldl_cons]
    have hnode : node ∈ g.nodes := hl node (List.mem_cons_self node rest)
    have hrest : ∀ n ∈ rest, n ∈ g.nodes := fun n hn => hl n (List.mem_cons_of_mem _ hn)
    by_cases hv : acc.1.contains node = true
    · rw [if_pos hv]
      exact ih hrest acc hacc
    · rw [if_neg hv]
      by_cases hsize : 3 ≤ (communityLoop g papers (g.nodes.length + g.edgeList.length + 1)
          { queue := [node], visited := acc.1 ++ [node], community := [node] }).community.length
      · rw [if_pos hsize]
        apply ih hrest
        intro c hc
        rcases List.mem_append.mp hc with h | h
        · exact hacc c h
        · have hceq := List.mem_singleton.mp h
          subst hceq
          constructor
          · apply communityLoop_community_subset g papers hw _ _
            intro m hm
            rw [List.mem_singleton.mp hm]
            exact hnode
          · exact hsize
      · rw [if_neg hsize]
        exact ih hrest _ hacc

/-- C7: every Community returned by `detectCommunities` has its member set
inside the graph's node set and at least 3 members; smaller discovered
groups are discarded. -/
theorem communities_subset_and_min_size (g : Graph) (papers : String → Paper)
    (hw : g.Wellformed) :
    ∀ c ∈ (detectCommunities g papers).communities,
      (∀ m ∈ c.members, m ∈ g.nodes) ∧ 3 ≤ c.size := by
  intro c hc
  unfold detectCommunities at hc
  simp only at hc
  have hperm := List.mergeSort_perm
    ((detectRawCommunities g papers).enum.map
      (fun p => analyzeCommunity papers p.1 p.2))
    (fun a b => decide (b.size ≤ a.size))
  have hc' := hperm.mem_iff.mp hc
  obtain ⟨⟨i, members⟩, hpair, hceq⟩ := List.mem_map.mp hc'
  have hmem : members ∈ detectRawCommunities g papers := by
    have h := List.mem_enum hpair
    exact h.2 ▸ List.getElem_mem h.1
  have hraw : (∀ m ∈ members, m ∈ g.nodes) ∧ 3 ≤ members.length := by
    unfold detectRawCommunities at hmem
    exact detect_fold_invariant g papers hw g.nodes (fun n hn => hn) ([], [])
      (by intro c hc; cases hc) members hmem
  subst hceq
  exact ⟨hraw.1, hraw.2⟩

/-- A paper used for the witness graph: all three nodes share it, so every
pairwise similarity is `0.4 + 0.3 + 0.3 = 1 > 0.3`. -/
def paperSame : Paper :=
  ⟨"s", "s", ["x"], 2020, 1, 1, ["a"], ["k"]⟩

/-- C7 witness: the community invariant applied to the spec §8 scenario
graph with identical paper attributes on every node. -/
theorem communities_subset_and_min_size_witness :
    gABC.Wellformed ∧
      (∀ c ∈ (detectCommunities gABC (fun _ => paperSame)).communities,
        (∀ m ∈ c.members, m ∈ gABC.nodes) ∧ 3 ≤ c.size) :=
  ⟨by decide, communities_subset_and_min_size gABC (fun _ => paperSame) (by decide)⟩

/-- Jaccard index as the spec's words state it (defined from the spec for
the refinement comparison, not from the source): intersection size over
union size, `0` when either set is empty and the other is not, and by
convention `0` when both are empty. -/
def specJaccard (l1 l2 : List String) : Rat :=
  let s1 := firstOccur l1
  let s2 := firstOccur l2
  let inter := (s1.filter (fun x => s2.contains x)).length
  let uni := (firstOccur (l1 ++ l2)).length
  if uni = 0 then 0 else (inter : Rat) / (uni : Rat)

/-- Pairwise similarity as the spec's words state it:
`0.4 * categoryJaccard + 0.3 * keywordJaccard + 0.3 * authorNameJaccard`. -/
def specSimilarity (p1 p2 : Paper) : Rat :=
  (4/10) * specJaccard p1.categories p2.categories +
  (3/10) * specJaccard p1.keywords p2.keywords +
  (3/10) * specJaccard p1.authors p2.authors

/-- Two concrete papers on which the code's and the spec's similarity
differ: category sets `{a,b}` and `{b,c}`. -/
def paperA : Paper := ⟨"p1", "P1", ["x"], 2020, 0, 0, ["a", "b"], ["k"]⟩

/-- Counterpart paper for the similarity counterexample. -/
def paperB : Paper := ⟨"p2", "P2", ["x"], 2021, 0, 0, ["b", "c"], ["k"]⟩

/-- C6 counterexample: the source divides each overlap by the **maximum**
of the two set sizes, not by the union size: for the papers above the code
yields `0.5*0.4 + 0.3 + 0.3 = 4/5` while the claim's Jaccard formula yields
`(1/3)*0.4 + 0.3 + 0.3 = 11/15`. -/
theorem similarity_not_spec_jaccard :
    calculatePaperSimilarity paperA paperB = some (4/5) ∧
    specSimilarity paperA paperB = 11/15 ∧
    ¬ calculatePaperSimilarity paperA paperB = some (specSimilarity paperA paperB) := by
  refine ⟨by decide, by decide, by decide⟩

/-- `contains` agrees with membership on `String` lists. -/
theorem contains_iff_mem (l : List String) (x : String) :
    l.contains x = true ↔ x ∈ l := by
  simp [List.contains, List.elem_iff]

/-- `setAdd` always contains the added element. -/
theorem setAdd_contains_self (l : List String) (x : String) :
    (setAdd l x).contains x = true := by
  unfold setAdd
  by_cases hc : l.contains x = true
  · rw [if_pos hc]
    exact hc
  · rw [if_neg hc]
    rw [contains_iff_mem]
    exact List.mem_append.mpr (Or.inr (List.mem_singleton.mpr rfl))

/-- C6 (amended): each similarity term divides the attribute overlap by the
maximum of the two deduplicated attribute-set sizes (when both sets of some
attribute are empty the JS sum is `NaN`, modelled `none`); an unvisited
outgoing neighbor joins the growing group exactly when this similarity to
the current node exceeds `0.3` (a `NaN` similarity never exceeds it). -/
theorem similarity_formula_and_threshold :
    (∀ p1 p2 : Paper,
      0 < max (firstOccur p1.categories).length (firstOccur p2.categories).length →
      0 < max (firstOccur p1.keywords).length (firstOccur p2.keywords).length →
      0 < max (firstOccur p1.authors).length (firstOccur p2.authors).length →
      calculatePaperSimilarity p1 p2 = some (
        (((firstOccur p1.categories).filter
            (fun x => (firstOccur p2.categories).contains x)).length : Rat) /
          ((max (firstOccur p1.categories).length (firstOccur p2.categories).length : Nat) : Rat)
            * (4/10) +
        (((firstOccur p1.keywords).filter
            (fun x => (firstOccur p2.keywords).contains x)).length : Rat) /
          ((max (firstOccur p1.keywords).length (firstOccur p2.keywords).length : Nat) : Rat)
            * (3/10) +
        (((firstOccur p1.authors).filter
            (fun x => (firstOccur p2.authors).contains x)).length : Rat) /
          ((max (firstOccur p1.authors).length (firstOccur p2.authors).length : Nat) : Rat)
            * (3/10))) ∧
    (∀ (papers : String → Paper) (current : String) (st : CommSt) (nb : String),
      st.visited.contains nb = false →
      ((considerNeighbor papers current st nb).community.contains nb = true ↔
        st.community.contains nb = true ∨
        simExceeds (calculatePaperSimilarity (papers current) (papers nb)) (3/10) = true)) := by
  constructor
  · intro p1 p2 hc hk ha
    have hcQ : ((max (firstOccur p1.categories).length (firstOccur p2.categories).length : Nat) : Rat) ≠ 0 := by
      exact_mod_cast Nat.pos_iff_ne_zero.mp hc
    have hkQ : ((max (firstOccur p1.keywords).length (firstOccur p2.keywords).length : Nat) : Rat) ≠ 0 := by
      exact_mod_cast Nat.pos_iff_ne_zero.mp hk
    have haQ : ((max (firstOccur p1.authors).length (firstOccur p2.authors).length : Nat) : Rat) ≠ 0 := by
      exact_mod_cast Nat.pos_iff_ne_zero.mp ha
    unfold calculatePaperSimilarity jsDiv
    simp only [if_neg hcQ, if_neg hkQ, if_neg haQ, Option.bind_eq_bind,
      Option.some_bind]
    rfl
  · intro papers current st nb hvis
    unfold considerNeighbor
    rw [if_neg (by rw [hvis]; exact Bool.false_ne_true)]
    by_cases hsim : simExceeds (calculatePaperSimilarity (papers current) (papers nb)) (3/10) = true
    · rw [if_pos hsim]
      simp only [hsim, or_true, iff_true]
      exact setAdd_contains_self st.community nb
    · rw [if_neg hsim]
      simp [hsim]

/-- C6 witness: the amended similarity formula evaluated on the two concrete
papers, and the threshold rule evaluated on a fresh BFS state. -/
theorem similarity_formula_and_threshold_witness :
    calculatePaperSimilarity paperA paperB = some (
        (((firstOccur paperA.categories).filter
            (fun x => (firstOccur paperB.categories).contains x)).length : Rat) /
          ((max (firstOccur paperA.categories).length (firstOccur paperB.categories).length : Nat) : Rat)
            * (4/10) +
        (((firstOccur paperA.keywords).filter
            (fun x => (firstOccur paperB.keywords).contains x)).length : Rat) /
          ((max (firstOccur paperA.keywords).length (firstOccur paperB.keywords).length : Nat) : Rat)
            * (3/10) +
        (((firstOccur paperA.authors).filter
            (fun x => (firstOccur paperB.authors).contains x)).length : Rat) /
          ((max (firstOccur paperA.authors).length (firstOccur paperB.authors).length : Nat) : Rat)
            * (3/10)) ∧
    ((considerNeighbor (fun _ => paperSame) "A" ⟨[], [], []⟩ "B").community.contains "B" = true ↔
      (⟨[], [], []⟩ : CommSt).community.contains "B" = true ∨
      simExceeds (calculatePaperSimilarity ((fun _ => paperSame) "A")
        ((fun _ => paperSame) "B")) (3/10) = true) :=
  ⟨similarity_formula_and_threshold.1 paperA paperB (by decide) (by decide) (by decide),
   similarity_formula_and_threshold.2 (fun _ => paperSame) "A" ⟨[], [], []⟩ "B" (by decide)⟩

/-- Ordered pairs `(neighbors[i], neighbors[j])` with `i < j` — the double
loop of lines 177-183. -/
def pairsOf {α : Type} : List α → List (α × α)
  | [] => []
  | x :: xs => xs.map (fun y => (x, y)) ++ pairsOf xs

/-- Local clustering coefficient of one node (lines 167-186): the adjacency
list is used as-is (parallel edges keep their multiplicity); fewer than 2
entries give `0`; otherwise the fraction of index pairs connected by an
edge in either direction over `k*(k-1)/2`. -/
def localClustering (g : Graph) (node : String) : Rat :=
  let neighbors := g.adjacent node
  if neighbors.length < 2 then 0
  else
    let triangles := ((pairsOf neighbors).filter
      (fun p => g.hasEdge p.1 p.2 || g.hasEdge p.2 p.1)).length
    let possibleTriangles := ((neighbors.length : Rat) * ((neighbors.length : Rat) - 1)) / 2
    (triangles : Rat) / possibleTriangles

/-- Result of `calculateClusteringMetrics` (lines 163-194): the per-node
table (keyed by node id) and the global mean, a JS division that is `NaN`
(`none`) on an empty node list. -/
structure ClusteringMetrics where
  localCoeff : String → Rat
  global : Option Rat

/-- `calculateClusteringMetrics` (lines 163-194). -/
def calculateClusteringMetrics (g : Graph) : ClusteringMetrics :=
  { localCoeff := localClustering g
    global := jsDiv (sumOver g.nodes (localClustering g)) (g.nodes.length : Rat) }

/-- Twice the pair count equals `k*(k-1)`. -/
theorem two_mul_pairsOf_length {α : Type} (l : List α) :
    2 * (pairsOf l).length = l.length * (l.length - 1) := by
  induction l with
  | nil => rfl
  | cons x xs ih =>
    simp only [pairsOf, List.length_append, List.length_map, List.length_cons]
    cases hxs : xs.length with
    | zero =>
      rw [hxs] at ih
      have hp : (pairsOf xs).length = 0 := by omega
      rw [hp]
    | succ n =>
      rw [hxs] at ih
      simp only [Nat.succ_sub_one] at ih ⊢
      calc 2 * (n + 1 + (pairsOf xs).length)
          = 2 * (n + 1) + 2 * (pairsOf xs).length := by ring
        _ = 2 * (n + 1) + (n + 1) * n := by rw [ih]
        _ = (n + 1 + 1) * (n + 1) := by ring

/-- Triangle-pair counting: the spec §8 scenario graph has been counted, a
graph with a parallel edge `u→a` (twice) and a self-loop `a→a`.  The node
`u` has a single distinct outgoing neighbor, yet its coefficient is 1. -/
def gPar : Graph :=
  ((Graph.emptyGraph.addEdge "u" "a").addEdge "u" "a").addEdge "a" "a"

/-- C9 counterexample: node `u` of `gPar` has exactly one distinct outgoing
neighbor (fewer than 2), yet its local clustering coefficient is `1`, not
the `0` the claim requires — the source counts adjacency entries (with
parallel-edge multiplicity), not distinct neighbors. -/
theorem clustering_counterexample :
    (firstOccur (gPar.adjacent "u")).length < 2 ∧
    localClustering gPar "u" = 1 ∧
    ¬ localClustering gPar "u" = 0 := by
  refine ⟨by decide, by decide, by decide⟩

/-- C9 (amended): every local clustering coefficient lies in `[0,1]`; a
node with fewer than 2 outgoing **adjacency entries** (parallel edges
counted separately) has coefficient exactly `0`; on a nonempty graph the
global value is the arithmetic mean of the per-node coefficients. -/
theorem clustering_bounds (g : Graph) :
    (∀ n, 0 ≤ localClustering g n ∧ localClustering g n ≤ 1) ∧
    (∀ n, (g.adjacent n).length < 2 → localClustering g n = 0) ∧
    (g.nodes ≠ [] →
      (calculateClusteringMetrics g).global =
        some (sumOver g.nodes (localClustering g) / (g.nodes.length : Rat))) := by
  refine ⟨?_, ?_, ?_⟩
  · intro n
    unfold localClustering
    by_cases hlen : (g.adjacent n).length < 2
    · rw [if_pos hlen]
      exact ⟨le_refl 0, by norm_num⟩
    · rw [if_neg hlen]
      have hL : 2 ≤ (g.adjacent n).length := Nat.le_of_not_lt hlen
      have hLQ : (2 : Rat) ≤ ((g.adjacent n).length : Rat) := by exact_mod_cast hL
      have hden : (0 : Rat) < (((g.adjacent n).length : Rat) *
          (((g.adjacent n).length : Rat) - 1)) / 2 := by
        have h1 : (0 : Rat) < ((g.adjacent n).length : Rat) := by linarith
        have h2 : (0 : Rat) < ((g.adjacent n).length : Rat) - 1 := by linarith
        positivity
      constructor
      · apply div_nonneg _ (le_of_lt hden)
        positivity
      · rw [div_le_one hden]
        have htle : (((pairsOf (g.adjacent n)).filter
            (fun p => g.hasEdge p.1 p.2 || g.hasEdge p.2 p.1)).length) ≤
            (pairsOf (g.adjacent n)).length := List.length_filter_le _ _
        have h2p := two_mul_pairsOf_length (g.adjacent n)
        have hcast : (((g.adjacent n).length : Rat) *
            (((g.adjacent n).length : Rat) - 1)) =
            ((((g.adjacent n).length * ((g.adjacent n).length - 1) : Nat)) : Rat) := by
          have h1 : (1 : Nat) ≤ (g.adjacent n).length := le_trans (by norm_num) hL
          push_cast [Nat.cast_sub h1]
          ring
        rw [hcast]
        have hnat : 2 * ((pairsOf (g.adjacent n)).filter
            (fun p => g.hasEdge p.1 p.2 || g.hasEdge p.2 p.1)).length ≤
            (g.adjacent n).length * ((g.adjacent n).length - 1) := by
          omega
        have hQ : (2 : Rat) * (((pairsOf (g.adjacent n)).filter
            (fun p => g.hasEdge p.1 p.2 || g.hasEdge p.2 p.1)).length : Rat) ≤
            (((g.adjacent n).length * ((g.adjacent n).length - 1) : Nat) : Rat) := by
          exact_mod_cast hnat
        linarith
  · intro n hlen
    unfold localClustering
    rw [if_pos hlen]
  · intro hne
    have hN : ((g.nodes.length : Rat)) ≠ 0 := by
      have : g.nodes.length ≠ 0 := fun h => hne (List.eq_nil_of_length_eq_zero h)
      exact_mod_cast this
    unfold calculateClusteringMetrics jsDiv
    rw [if_neg hN]

/-- C9 witness: the amended clustering properties evaluated on the spec §8
scenario graph — node `A` is in bounds, node `C` has no outgoing entries
and coefficient `0`, and the global mean is defined. -/
theorem clustering_bounds_witness :
    (0 ≤ localClustering gABC "A" ∧ localClustering gABC "A" ≤ 1) ∧
    ((gABC.adjacent "C").length < 2 ∧ localClustering gABC "C" = 0) ∧
    (gABC.nodes ≠ [] ∧ (calculateClusteringMetrics gABC).global =
      some (sumOver gABC.nodes (localClustering gABC) / (gABC.nodes.length : Rat))) :=
  ⟨(clustering_bounds gABC).1 "A",
   ⟨by decide, (clustering_bounds gABC).2.1 "C" (by decide)⟩,
   ⟨by decide, (clustering_bounds gABC).2.2 (by decide)⟩⟩

/-- The `while` loop of `findShortestPaths` (lines 369-397), fuelled: pop a
path; a path ending at the target is recorded (up to 3); paths longer than
5 entries are not extended; extension of a not-yet-seen path enqueues every
simple one-step extension.  Each iteration pops one queue element and only
unseen simple paths of at most 5 entries are ever extended, so
`n^6 + n + 2` fuel always drains the queue; no claim depends on the exact
fuel. -/
def findShortestPathsLoop (g : Graph) (target : String) :
    Nat → List (List String) → List String → List (List String) → List (List String)
  | 0, _, _, paths => paths
  | fuel + 1, queue, visited, paths =>
    if 3 ≤ paths.length then paths
    else
      match queue with
      | [] => paths
      | path :: rest =>
        if path.getLastD "" == target then
          findShortestPathsLoop g target fuel rest visited (paths ++ [path])
        else if 5 < path.length then
          findShortestPathsLoop g target fuel rest visited paths
        else if visited.contains (String.intercalate "-" path) then
          findShortestPathsLoop g target fuel rest visited paths
        else
          findShortestPathsLoop g target fuel
            (rest ++ ((g.adjacent (path.getLastD "")).filter
              (fun neighbor => !path.contains neighbor)).map (fun neighbor => path ++ [neighbor]))
            (visited ++ [String.intercalate "-" path]) paths

/-- `findShortestPaths` (lines 369-397) with the caller's `maxPaths = 3`. -/
def findShortestPaths (g : Graph) (source target : String) : List (List String) :=
  findShortestPathsLoop g target (g.nodes.length ^ 6 + g.nodes.length + 2) [[source]] [] []

/-- `calculateBetweennessCentrality` (lines 300-332): count, over all
ordered pairs of distinct nodes, how many of the up-to-3 found paths pass
through each strictly interior node; then normalize by the maximum count
when it is positive.  Counter objects are keyed by node id; `0` stands for
an absent key. -/
def calculateBetweennessCentrality (g : Graph) : String → Rat :=
  let raw : String → Nat := g.nodes.foldl (fun m source =>
    g.nodes.foldl (fun m target =>
      if source = target then m
      else (findShortestPaths g source target).foldl
        (fun m path => ((path.drop 1).dropLast).foldl
          (fun m v => Function.update m v (m v + 1)) m) m) m) (fun _ => 0)
  let maxBetweenness := (g.nodes.map raw).foldl max 0
  fun node =>
    if 0 < maxBetweenness then (raw node : Rat) / (maxBetweenness : Rat)
    else (raw node : Rat)

/-- Result of `calculateCentralityMetrics` (lines 137-160). -/
structure CentralityMetrics where
  inDeg : String → Nat
  outDeg : String → Nat
  betweenness : String → Rat
  authority : String → Rat

/-- `calculateCentralityMetrics` (lines 137-160): per-node in/out degree
tables, the simplified betweenness, and the authority scores with the
default 10 iterations and damping `0.85`. -/
def calculateCentralityMetrics (g : Graph) : CentralityMetrics :=
  { inDeg := fun node => g.indegree node
    outDeg := fun node => g.outdegree node
    betweenness := calculateBetweennessCentrality g
    authority := calculateAuthorityScore g 10 (85/100) }

/-- Inner part of the recursive `dfs` (lines 202-212), fuelled: process a
pending neighbor list; an unvisited neighbor is marked, appended to the
component, and its own (undirected) neighbors are processed first.  State
is `(visited, component)`. -/
def dfsNeighbors (g : Graph) : Nat → List String → List String × List String →
    List String × List String
  | 0, _, st => st
  | _ + 1, [], st => st
  | fuel + 1, neighbor :: rest, st =>
    let st' :=
      if st.1.contains neighbor then st
      else dfsNeighbors g fuel (g.adjacent neighbor ++ g.adjacentReverse neighbor)
        (st.1 ++ [neighbor], st.2 ++ [neighbor])
    dfsNeighbors g fuel rest st'

/-- Result of `findConnectedComponents` (lines 197-228).  `largest` is
`Math.max(...sizes)`, non-finite (`none`) when there are no components. -/
structure ComponentsReport where
  count : Nat
  sizes : List Nat
  largest : Option Nat
  components : List (List String)
deriving Repr, DecidableEq

/-- `findConnectedComponents` (lines 197-228): undirected DFS from every
unvisited node; components are reported sorted descending by size. -/
def findConnectedComponents (g : Graph) : ComponentsReport :=
  let res := g.nodes.foldl (fun (acc : List String × List (List String)) node =>
    if acc.1.contains node then acc
    else
      let st := dfsNeighbors g (g.nodes.length + 2 * g.edgeList.length + 2)
        (g.adjacent node ++ g.adjacentReverse node) (acc.1 ++ [node], [node])
      (st.1, acc.2 ++ [st.2])) ([], [])
  { count := res.2.length
    sizes := res.2.map List.length
    largest := (res.2.map List.length).max?
    components := res.2.mergeSort (fun a b => decide (b.length ≤ a.length)) }

/-- The metrics object assembled by `calculateNetworkMetrics`
(lines 105-111). -/
structure NetworkMetrics where
  basic : BasicMetrics
  centrality : CentralityMetrics
  clustering : ClusteringMetrics
  components : ComponentsReport
  communities : CommunitiesReport

/-- The NotBuilt error text (line 102). -/
def notBuiltMsg : String := "Citation network not built. Call buildCitationNetwork first."

/-- Lookup into `this.paperNodes`; the default stands for `undefined` and
is never read on built states, where every node id is mapped. -/
def statePapers (st : NetState) : String → Paper :=
  fun n => (mapGet st.paperNodes n).getD defaultPaper

/-- The successful branch of `calculateNetworkMetrics` (lines 105-111). -/
def networkMetricsOf (g : Graph) (papers : String → Paper) : NetworkMetrics :=
  { basic := calculateBasicMetrics g
    centrality := calculateCentralityMetrics g
    clustering := calculateClusteringMetrics g
    components := findConnectedComponents g
    communities := detectCommunities g papers }

/-- `calculateNetworkMetrics` (lines 100-114): throws the NotBuilt error on
a zero-node graph, otherwise assembles the metrics object. -/
def calculateNetworkMetrics (st : NetState) : Except String NetworkMetrics :=
  if st.graph.nodes.length = 0 then Except.error notBuiltMsg
  else Except.ok (networkMetricsOf st.graph (statePapers st))

/-- Node object of the `json` export (lines 671-674): the node id spread
together with the paper snapshot. -/
structure ExportNode where
  id : String
  paper : Paper
deriving Repr, DecidableEq

/-- Edge object of the `json` export (lines 676-680).  The spread of the
`citationEdges` metadata carries fields the XML converters never read; its
`source`/`target` coincide with the graph edge's. -/
structure ExportEdge where
  source : String
  target : String
deriving Repr, DecidableEq

/-- The node/edge/metadata triple of `exportNetworkData` (lines 682-690);
`generatedAt` (`new Date().toISOString()`) is passed in as `now`. -/
structure ExportData where
  nodes : List ExportNode
  edges : List ExportEdge
  nodeCount : Nat
  edgeCount : Nat
  generatedAt : String
deriving Repr, DecidableEq

/-- JS string rendering of a number: integral values print without a
decimal point; non-integral decimal rendering is not modelled digit-exactly
(no claim depends on it) and is written `num/den`. -/
def jsNumStr (q : Rat) : String :=
  if q.den = 1 then toString q.num else toString q

/-- `title.replace(/"/g, "&quot;")` (line 714): every double quote — and
nothing else — is replaced. -/
def escQuotes (s : String) : String :=
  String.mk (s.toList.flatMap (fun c => if c = '"' then "&quot;".toList else [c]))

/-- `convertToGEXF` (lines 705-734), accumulating exactly as the source's
`gexf += ...` statements do. -/
def convertToGEXF (networkData : ExportData) : String :=
  let s0 := "<?xml version=\"1.0\" encoding=\"UTF-8\"?>\n" ++
    "<gexf xmlns=\"http://www.gexf.net/1.2draft\" version=\"1.2\">\n" ++
    "<graph mode=\"static\" defaultedgetype=\"directed\">\n" ++
    "<nodes>\n"
  let s1 := networkData.nodes.foldl (fun acc node =>
    acc ++ "<node id=\"" ++ node.id ++ "\" label=\"" ++ escQuotes node.paper.title ++ "\">\n" ++
      "<attvalues>\n" ++
      "<attvalue for=\"citationCount\" value=\"" ++ jsNumStr node.paper.citationCount ++ "\"/>\n" ++
      "<attvalue for=\"impactScore\" value=\"" ++ jsNumStr node.paper.impactScore ++ "\"/>\n" ++
      "</attvalues>\n" ++
      "</node>\n") s0
  let s2 := s1 ++ "</nodes>\n" ++ "<edges>\n"
  let s3 := networkData.edges.enum.foldl (fun acc ie =>
    acc ++ "<edge id=\"" ++ toString ie.1 ++ "\" source=\"" ++ ie.2.source ++
      "\" target=\"" ++ ie.2.target ++ "\"/>\n") s2
  s3 ++ "</edges>\n" ++ "</graph>\n" ++ "</gexf>"

/-- `convertToGraphML` (lines 737-757): nodes carry only their id — no
label, no attributes; edge ids are prefixed with `e`. -/
def convertToGraphML (networkData : ExportData) : String :=
  let s0 := "<?xml version=\"1.0\" encoding=\"UTF-8\"?>\n" ++
    "<graphml xmlns=\"http://graphml.graphdrawing.org/xmlns\">\n" ++
    "<graph id=\"CitationNetwork\" edgedefault=\"directed\">\n"
  let s1 := networkData.nodes.foldl (fun acc node =>
    acc ++ "<node id=\"" ++ node.id ++ "\"/>\n") s0
  let s2 := networkData.edges.enum.foldl (fun acc ie =>
    acc ++ "<edge id=\"e" ++ toString ie.1 ++ "\" source=\"" ++ ie.2.source ++
      "\" target=\"" ++ ie.2.target ++ "\"/>\n") s1
  s2 ++ "</graph>\n" ++ "</graphml>"

/-- Result of `exportNetworkData`: the JSON object or generated XML text. -/
inductive ExportResult where
  | jsonData (d : ExportData)
  | xml (s : String)
deriving Repr, DecidableEq

/-- `exportNetworkData` (lines 670-702): no zero-node guard exists in the
source — the function never throws.  It is placed in the same error monad
as `calculateNetworkMetrics` so that the presence or absence of the
NotBuilt failure is comparable; an unrecognized format falls back to the
JSON object. -/
def exportNetworkData (st : NetState) (format : String) (now : String) :
    Except String ExportResult :=
  let nodes := st.graph.nodes.map (fun nodeId => ExportNode.mk nodeId (statePapers st nodeId))
  let edges := st.graph.edges.map (fun e => ExportEdge.mk e.1 e.2)
  let networkData : ExportData := ⟨nodes, edges, nodes.length, edges.length, now⟩
  if format == "json" then Except.ok (ExportResult.jsonData networkData)
  else if format == "gexf" then Except.ok (ExportResult.xml (convertToGEXF networkData))
  else if format == "graphml" then Except.ok (ExportResult.xml (convertToGraphML networkData))
  else Except.ok (ExportResult.jsonData networkData)

/-- Options of `identifySeminalPapers` (line 485). -/
structure SeminalOptions where
  minCitations : Rat
  minAge : Int
  topN : Nat
deriving Repr, DecidableEq

/-- The source's defaults: `minCitations = 50`, `minAge = 2`, `topN = 50`. -/
def defaultSeminalOptions : SeminalOptions := ⟨50, 2, 50⟩

/-- One seminal candidate (lines 511-519): the paper, its composite score,
and the network metrics it was scored with. -/
structure SeminalCandidate where
  paper : Paper
  seminalScore : Rat
  inDegree : Nat
  authority : Rat
  betweenness : Rat
deriving Repr, DecidableEq

/-- The candidate object pushed at lines 511-519: the paper, the composite
seminal score (`citationCount*0.3 + impactScore*0.2 + inDegree*0.2 +
authority*100*0.2 + betweenness*100*0.1`), and the metrics it used. -/
def seminalCandidateAt (st : NetState) (metrics : NetworkMetrics)
    (nodeId : String) : SeminalCandidate :=
  { paper := statePapers st nodeId
    seminalScore := (statePapers st nodeId).citationCount * (3/10) +
      (statePapers st nodeId).impactScore * (2/10) +
      (metrics.centrality.inDeg nodeId : Rat) * (2/10) +
      metrics.centrality.authority nodeId * 100 * (2/10) +
      metrics.centrality.betweenness nodeId * 100 * (1/10)
    inDegree := metrics.centrality.inDeg nodeId
    authority := metrics.centrality.authority nodeId
    betweenness := metrics.centrality.betweenness nodeId }

/-- The pure part of `identifySeminalPapers` (lines 492-530), given the
computed metrics: collect every node passing the citation-count and age
thresholds, sort descending by seminal score (stable, as ES2019 `sort`),
truncate to `topN`, and record the single store write with the selected
papers' ids. -/
def seminalCore (st : NetState) (opts : SeminalOptions) (currentYear : Int)
    (metrics : NetworkMetrics) : List SeminalCandidate × List (List String) :=
  let seminalCandidates := st.graph.nodes.foldl (fun acc nodeId =>
    let paper := statePapers st nodeId
    let age := currentYear - paper.publishedYear
    if opts.minCitations ≤ paper.citationCount ∧ opts.minAge ≤ age then
      acc ++ [seminalCandidateAt st metrics nodeId]
    else acc) []
  let seminalPapers := (seminalCandidates.mergeSort
    (fun a b => decide (b.seminalScore ≤ a.seminalScore))).take opts.topN
  let seminalPaperIds := seminalPapers.map (fun sp => sp.paper.id)
  (seminalPapers, [seminalPaperIds])

/-- `identifySeminalPapers` (lines 484-531).  The zero-node branch of the
source re-runs `buildCitationNetwork` against the external store (line
488), an interaction outside this model; here a zero-node state propagates
the metrics error, as the source does when the store has no papers.
`currentYear` models `new Date().getFullYear()`.  The single store write
`Paper.updateMany(..., { isSeminal: true })` (line 528) — the engine's only
write — is modelled by returning the write calls' id lists alongside the
result. -/
def identifySeminalPapers (st : NetState) (opts : SeminalOptions) (currentYear : Int) :
    Except String (List SeminalCandidate × List (List String)) := do
  let metrics ← calculateNetworkMetrics st
  pure (seminalCore st opts currentYear metrics)

/-- The engine's state before any successful build: an empty graph and
empty attribute tables. -/
def emptyNetState : NetState := ⟨Graph.emptyGraph, [], []⟩

/-- C1 counterexample: on the zero-node state, `calculateNetworkMetrics`
raises the NotBuilt error, but `exportNetworkData` — which the claim says
also fails with NotBuilt — has no such guard and returns an empty export
successfully. -/
theorem export_empty_graph_succeeds :
    calculateNetworkMetrics emptyNetState = Except.error notBuiltMsg ∧
    exportNetworkData emptyNetState "json" "2026-10-11T00:00:00.000Z" =
      Except.ok (ExportResult.jsonData ⟨[], [], 0, 0, "2026-10-11T00:00:00.000Z"⟩) ∧
    ¬ exportNetworkData emptyNetState "json" "2026-10-11T00:00:00.000Z" =
        Except.error notBuiltMsg := by
  refine ⟨rfl, rfl, ?_⟩
  intro hcontra
  exact Except.noConfusion ((show exportNetworkData emptyNetState "json"
    "2026-10-11T00:00:00.000Z" = Except.ok (ExportResult.jsonData
      ⟨[], [], 0, 0, "2026-10-11T00:00:00.000Z"⟩) from rfl).symm.trans hcontra)

/-- C1 (amended): for every zero-node state, `calculateNetworkMetrics`
(whose result embeds the connected components and communities) fails with
the NotBuilt error, while `exportNetworkData` performs no such check and
succeeds for every format, returning an empty export. -/
theorem metrics_notBuilt_export_no_guard (st : NetState) (format now : String)
    (h : st.graph.nodes = []) :
    calculateNetworkMetrics st = Except.error notBuiltMsg ∧
    ∃ r, exportNetworkData st format now = Except.ok r := by
  constructor
  · unfold calculateNetworkMetrics
    rw [if_pos (by rw [h]; rfl)]
  · unfold exportNetworkData
    by_cases h1 : (format == "json") = true
    · rw [if_pos h1]
      exact ⟨_, rfl⟩
    · rw [if_neg h1]
      by_cases h2 : (format == "gexf") = true
      · rw [if_pos h2]
        exact ⟨_, rfl⟩
      · rw [if_neg h2]
        by_cases h3 : (format == "graphml") = true
        · rw [if_pos h3]
          exact ⟨_, rfl⟩
        · rw [if_neg h3]
          exact ⟨_, rfl⟩

/-- C1 witness: the amended behavior evaluated on the empty state with the
`gexf` format. -/
theorem metrics_notBuilt_export_no_guard_witness :
    emptyNetState.graph.nodes = [] ∧
    (calculateNetworkMetrics emptyNetState = Except.error notBuiltMsg ∧
      ∃ r, exportNetworkData emptyNetState "gexf" "t" = Except.ok r) :=
  ⟨rfl, metrics_notBuilt_export_no_guard emptyNetState "gexf" "t" rfl⟩

/-- Concatenation of a string list, in order. -/
def strJoin : List String → String
  | [] => ""
  | s :: rest => s ++ strJoin rest

/-- Imperative string accumulation over a list equals the seed followed by
one rendered segment per element. -/
theorem foldl_append_eq_strJoin {α : Type} (f : α → String) (l : List α) (s : String) :
    l.foldl (fun acc x => acc ++ f x) s = s ++ strJoin (l.map f) := by
  induction l generalizing s with
  | nil => simp [strJoin, String.append_empty]
  | cons x xs ih =>
    rw [List.foldl_cons, ih (s ++ f x), List.map_cons]
    show s ++ f x ++ strJoin (xs.map f) = s ++ (f x ++ strJoin (xs.map f))
    rw [String.append_assoc]

/-- GEXF preamble up to and including the opening of the node list. -/
def gexfHeader : String :=
  "<?xml version=\"1.0\" encoding=\"UTF-8\"?>\n" ++
  "<gexf xmlns=\"http://www.gexf.net/1.2draft\" version=\"1.2\">\n" ++
  "<graph mode=\"static\" defaultedgetype=\"directed\">\n" ++
  "<nodes>\n"

/-- GEXF text between the node list and the edge list. -/
def gexfMid : String := "</nodes>\n" ++ "<edges>\n"

/-- GEXF closing text. -/
def gexfFooter : String := "</edges>\n" ++ "</graph>\n" ++ "</gexf>"

/-- The one `<node>` element GEXF renders per PaperNode: id, label with
double quotes escaped, and the citation count and impact score as
`attvalue`s. -/
def gexfNodeElem (node : ExportNode) : String :=
  "<node id=\"" ++ node.id ++ "\" label=\"" ++ escQuotes node.paper.title ++ "\">\n" ++
    "<attvalues>\n" ++
    "<attvalue for=\"citationCount\" value=\"" ++ jsNumStr node.paper.citationCount ++ "\"/>\n" ++
    "<attvalue for=\"impactScore\" value=\"" ++ jsNumStr node.paper.impactScore ++ "\"/>\n" ++
    "</attvalues>\n" ++
    "</node>\n"

/-- The one `<edge>` element GEXF renders per CitationEdge: sequential
integer id, source, target. -/
def gexfEdgeElem (ie : Nat × ExportEdge) : String :=
  "<edge id=\"" ++ toString ie.1 ++ "\" source=\"" ++ ie.2.source ++
    "\" target=\"" ++ ie.2.target ++ "\"/>\n"

/-- GraphML preamble. -/
def graphmlHeader : String :=
  "<?xml version=\"1.0\" encoding=\"UTF-8\"?>\n" ++
  "<graphml xmlns=\"http://graphml.graphdrawing.org/xmlns\">\n" ++
  "<graph id=\"CitationNetwork\" edgedefault=\"directed\">\n"

/-- The one `<node>` element GraphML renders per PaperNode: only the id —
no label and no attributes. -/
def graphmlNodeElem (node : ExportNode) : String :=
  "<node id=\"" ++ node.id ++ "\"/>\n"

/-- The one `<edge>` element GraphML renders per CitationEdge: id `e`
followed by the sequential index, source, target. -/
def graphmlEdgeElem (ie : Nat × ExportEdge) : String :=
  "<edge id=\"e" ++ toString ie.1 ++ "\" source=\"" ++ ie.2.source ++
    "\" target=\"" ++ ie.2.target ++ "\"/>\n"

/-- GraphML closing text. -/
def graphmlFooter : String := "</graph>\n" ++ "</graphml>"

/-- A paper whose title contains an unescaped reserved XML character. -/
def paperX : Paper := ⟨"n1", "a<b", [], 2020, 7, 3, [], []⟩

/-- A one-node, one-edge export payload for the XML counterexample. -/
def ndSample : ExportData := ⟨[⟨"n1", paperX⟩], [⟨"n1", "n1"⟩], 1, 1, "t"⟩

/-- Substring test on character lists. -/
def subSeq : List Char → List Char → Bool
  | pat, [] => pat.isEmpty
  | pat, c :: rest => pat.isPrefixOf (c :: rest) || subSeq pat rest

set_option maxRecDepth 4000 in
/-- C10 counterexample: the GraphML export of a one-node network contains
neither the node's title nor any citation-count attribute (its `<node>`
carries only the id), and the GEXF export leaves the reserved character `<`
in the title unescaped (no `&lt;` entity appears). -/
theorem export_claim_counterexample :
    subSeq "a<b".toList (convertToGraphML ndSample).toList = false ∧
    subSeq "citationCount".toList (convertToGraphML ndSample).toList = false ∧
    subSeq "a<b".toList (convertToGEXF ndSample).toList = true ∧
    subSeq "&lt;".toList (convertToGEXF ndSample).toList = false := by
  refine ⟨by decide, by decide, by decide, by decide⟩

/-- C10 (amended): both XML exports consist of a fixed preamble, exactly
one rendered element per PaperNode, exactly one rendered element per
CitationEdge (with its sequential index), and a fixed closing text.  GEXF
node elements carry id, label (with only double quotes entity-escaped) and
the two score attributes; GraphML node elements carry only the id; other
reserved XML characters pass through unescaped. -/
theorem export_xml_shape (nd : ExportData) :
    convertToGEXF nd =
      gexfHeader ++ strJoin (nd.nodes.map gexfNodeElem) ++ gexfMid ++
        strJoin (nd.edges.enum.map gexfEdgeElem) ++ gexfFooter ∧
    convertToGraphML nd =
      graphmlHeader ++ strJoin (nd.nodes.map graphmlNodeElem) ++
        strJoin (nd.edges.enum.map graphmlEdgeElem) ++ graphmlFooter ∧
    (∀ node, graphmlNodeElem node = "<node id=\"" ++ node.id ++ "\"/>\n") ∧
    escQuotes "a<b&c" = "a<b&c" ∧
    escQuotes "a\"b" = "a&quot;b" := by
  refine ⟨?_, ?_, fun node => rfl, by decide, by decide⟩
  · simp only [convertToGEXF]
    have hnodes : (fun (acc : String) (node : ExportNode) =>
        acc ++ "<node id=\"" ++ node.id ++ "\" label=\"" ++ escQuotes node.paper.title ++ "\">\n" ++
          "<attvalues>\n" ++
          "<attvalue for=\"citationCount\" value=\"" ++ jsNumStr node.paper.citationCount ++ "\"/>\n" ++
          "<attvalue for=\"impactScore\" value=\"" ++ jsNumStr node.paper.impactScore ++ "\"/>\n" ++
          "</attvalues>\n" ++
          "</node>\n") =
        (fun (acc : String) (node : ExportNode) => acc ++ gexfNodeElem node) := by
      funext acc node
      simp [gexfNodeElem, String.append_assoc]
    have hedges : (fun (acc : String) (ie : Nat × ExportEdge) =>
        acc ++ "<edge id=\"" ++ toString ie.1 ++ "\" source=\"" ++ ie.2.source ++
          "\" target=\"" ++ ie.2.target ++ "\"/>\n") =
        (fun (acc : String) (ie : Nat × ExportEdge) => acc ++ gexfEdgeElem ie) := by
      funext acc ie
      simp [gexfEdgeElem, String.append_assoc]
    rw [hnodes, hedges, foldl_append_eq_strJoin, foldl_append_eq_strJoin]
    simp [gexfHeader, gexfMid, gexfFooter, String.append_assoc]
  · simp only [convertToGraphML]
    have hnodes : (fun (acc : String) (node : ExportNode) =>
        acc ++ "<node id=\"" ++ node.id ++ "\"/>\n") =
        (fun (acc : String) (node : ExportNode) => acc ++ graphmlNodeElem node) := by
      funext acc node
      simp [graphmlNodeElem, String.append_assoc]
    have hedges : (fun (acc : String) (ie : Nat × ExportEdge) =>
        acc ++ "<edge id=\"e" ++ toString ie.1 ++ "\" source=\"" ++ ie.2.source ++
          "\" target=\"" ++ ie.2.target ++ "\"/>\n") =
        (fun (acc : String) (ie : Nat × ExportEdge) => acc ++ graphmlEdgeElem ie) := by
      funext acc ie
      simp [graphmlEdgeElem, String.append_assoc]
    rw [hnodes, hedges, foldl_append_eq_strJoin, foldl_append_eq_strJoin]
    simp [graphmlHeader, graphmlFooter, String.append_assoc]

/-- Conditional-append fold equals filter-then-map. -/
theorem foldl_ite_append {α β : Type} (P : α → Prop) [DecidablePred P] (f : α → β)
    (l : List α) (acc : List β) :
    l.foldl (fun acc x => if P x then acc ++ [f x] else acc) acc =
      acc ++ (l.filter (fun x => decide (P x))).map f := by
  induction l generalizing acc with
  | nil => simp
  | cons x xs ih =>
    rw [List.foldl_cons, List.filter_cons]
    by_cases h : P x
    · rw [if_pos h, ih]
      simp [h]
    · rw [if_neg h, ih]
      simp [h]

/-- The seminal selection in filter/map/sort/take form, used to state the
characterization of `seminalCore`. -/
def seminalSelected (st : NetState) (opts : SeminalOptions) (currentYear : Int)
    (metrics : NetworkMetrics) : List SeminalCandidate :=
  (((st.graph.nodes.filter (fun nodeId =>
      decide (opts.minCitations ≤ (statePapers st nodeId).citationCount ∧
        opts.minAge ≤ currentYear - (statePapers st nodeId).publishedYear))).map
    (seminalCandidateAt st metrics)).mergeSort
    (fun a b => decide (b.seminalScore ≤ a.seminalScore))).take opts.topN

/-- `seminalCore` returns exactly the filtered, scored, descending-sorted,
truncated candidates, together with the one store write of their ids. -/
theorem seminalCore_eq (st : NetState) (opts : SeminalOptions) (currentYear : Int)
    (metrics : NetworkMetrics) :
    seminalCore st opts currentYear metrics =
      (seminalSelected st opts currentYear metrics,
       [(seminalSelected st opts currentYear metrics).map (fun sp => sp.paper.id)]) := by
  simp only [seminalCore]
  have hfold := foldl_ite_append (fun nodeId =>
      opts.minCitations ≤ (statePapers st nodeId).citationCount ∧
        opts.minAge ≤ currentYear - (statePapers st nodeId).publishedYear)
    (seminalCandidateAt st metrics) st.graph.nodes []
  rw [hfold]
  simp only [List.nil_append]
  rfl

/-- The chosen comparator is transitive. -/
theorem seminalLe_trans :
    ∀ a b c : SeminalCandidate,
      decide (b.seminalScore ≤ a.seminalScore) = true →
      decide (c.seminalScore ≤ b.seminalScore) = true →
      decide (c.seminalScore ≤ a.seminalScore) = true := by
  intro a b c h1 h2
  rw [decide_eq_true_iff] at h1 h2 ⊢
  exact le_trans h2 h1

/-- The chosen comparator is total. -/
theorem seminalLe_total :
    ∀ a b : SeminalCandidate,
      (decide (b.seminalScore ≤ a.seminalScore) ||
        decide (a.seminalScore ≤ b.seminalScore)) = true := by
  intro a b
  rcases le_total b.seminalScore a.seminalScore with h | h
  · simp [h]
  · simp [h]

/-- C8: a paper is a seminal candidate exactly when
`citationCount ≥ minCitations` and `currentYear − publicationYear ≥ minAge`
(defaults 50 and 2); each candidate's score is the composite formula of
lines 504-509; the result is the candidate list sorted descending by score
and truncated to `topN` (default 50); and the selected papers' ids are
persisted in exactly one store write — the only write the engine issues. -/
theorem seminal_selection (st : NetState) (opts : SeminalOptions) (currentYear : Int)
    (hne : st.graph.nodes ≠ []) :
    identifySeminalPapers st opts currentYear = Except.ok
      (seminalSelected st opts currentYear (networkMetricsOf st.graph (statePapers st)),
       [(seminalSelected st opts currentYear
          (networkMetricsOf st.graph (statePapers st))).map (fun sp => sp.paper.id)]) ∧
    List.Pairwise (fun a b : SeminalCandidate => b.seminalScore ≤ a.seminalScore)
      (seminalSelected st opts currentYear (networkMetricsOf st.graph (statePapers st))) ∧
    (∀ nodeId ∈ st.graph.nodes,
      (nodeId ∈ st.graph.nodes.filter (fun n =>
          decide (opts.minCitations ≤ (statePapers st n).citationCount ∧
            opts.minAge ≤ currentYear - (statePapers st n).publishedYear)) ↔
        (opts.minCitations ≤ (statePapers st nodeId).citationCount ∧
          opts.minAge ≤ currentYear - (statePapers st nodeId).publishedYear))) ∧
    (∀ metrics nodeId, (seminalCandidateAt st metrics nodeId).seminalScore =
      (statePapers st nodeId).citationCount * (3/10) +
      (statePapers st nodeId).impactScore * (2/10) +
      (metrics.centrality.inDeg nodeId : Rat) * (2/10) +
      metrics.centrality.authority nodeId * 100 * (2/10) +
      metrics.centrality.betweenness nodeId * 100 * (1/10)) ∧
    defaultSeminalOptions.minCitations = 50 ∧ defaultSeminalOptions.minAge = 2 ∧
    defaultSeminalOptions.topN = 50 := by
  have hlen : ¬ st.graph.nodes.length = 0 := fun h => hne (List.length_eq_zero.mp h)
  have hmetrics : calculateNetworkMetrics st =
      Except.ok (networkMetricsOf st.graph (statePapers st)) := by
    unfold calculateNetworkMetrics
    rw [if_neg hlen]
  refine ⟨?_, ?_, ?_, fun metrics nodeId => rfl, rfl, rfl, rfl⟩
  · unfold identifySeminalPapers
    rw [hmetrics]
    show Except.ok (seminalCore st opts currentYear
      (networkMetricsOf st.graph (statePapers st))) = _
    rw [seminalCore_eq]
  · unfold seminalSelected
    apply List.Pairwise.sublist (List.take_sublist _ _)
    have hp := List.sorted_mergeSort seminalLe_trans seminalLe_total
      ((st.graph.nodes.filter (fun nodeId =>
        decide (opts.minCitations ≤ (statePapers st nodeId).citationCount ∧
          opts.minAge ≤ currentYear - (statePapers st nodeId).publishedYear))).map
        (seminalCandidateAt st (networkMetricsOf st.graph (statePapers st))))
    exact hp.imp (fun h => of_decide_eq_true h)
  · intro nodeId hmem
    rw [List.mem_filter]
    constructor
    · intro h
      exact of_decide_eq_true h.2
    · intro h
      exact ⟨hmem, decide_eq_true h⟩

/-- A paper passing both seminal thresholds in 2026. -/
def paperSem : Paper := ⟨"A", "T", ["x"], 2020, 60, 2, ["a"], ["k"]⟩

/-- One-paper built state for the seminal-selection witness. -/
def stSem : NetState := buildCitationNetwork [paperSem] []

/-- C8 witness: the selection characterization evaluated on a one-paper
state with the default options in 2026. -/
theorem seminal_selection_witness :
    stSem.graph.nodes ≠ [] ∧
    (identifySeminalPapers stSem defaultSeminalOptions 2026 = Except.ok
      (seminalSelected stSem defaultSeminalOptions 2026
        (networkMetricsOf stSem.graph (statePapers stSem)),
       [(seminalSelected stSem defaultSeminalOptions 2026
          (networkMetricsOf stSem.graph (statePapers stSem))).map (fun sp => sp.paper.id)]) ∧
    List.Pairwise (fun a b : SeminalCandidate => b.seminalScore ≤ a.seminalScore)
      (seminalSelected stSem defaultSeminalOptions 2026
        (networkMetricsOf stSem.graph (statePapers stSem))) ∧
    (∀ nodeId ∈ stSem.graph.nodes,
      (nodeId ∈ stSem.graph.nodes.filter (fun n =>
          decide (defaultSeminalOptions.minCitations ≤ (statePapers stSem n).citationCount ∧
            defaultSeminalOptions.minAge ≤ 2026 - (statePapers stSem n).publishedYear)) ↔
        (defaultSeminalOptions.minCitations ≤ (statePapers stSem nodeId).citationCount ∧
          defaultSeminalOptions.minAge ≤ 2026 - (statePapers stSem nodeId).publishedYear))) ∧
    (∀ metrics nodeId, (seminalCandidateAt stSem metrics nodeId).seminalScore =
      (statePapers stSem nodeId).citationCount * (3/10) +
      (statePapers stSem nodeId).impactScore * (2/10) +
      (metrics.centrality.inDeg nodeId : Rat) * (2/10) +
      metrics.centrality.authority nodeId * 100 * (2/10) +
      metrics.centrality.betweenness nodeId * 100 * (1/10)) ∧
    defaultSeminalOptions.minCitations = 50 ∧ defaultSeminalOptions.minAge = 2 ∧
    defaultSeminalOptions.topN = 50) :=
  ⟨by decide, seminal_selection stSem defaultSeminalOptions 2026 (by decide)⟩

end CitationNet
